import Mathlib

/-!
Verification of the OpenStreetMap parser (src/project/mapparser.py).

The Python source is shallowly embedded: strings are Lean strings handled
code-point-wise (Python 2 unicode strings), dictionaries are association
lists with overwrite-on-insert semantics, the SkipItem exception and the
fatal KeyError / ValueError exceptions are an explicit error type, and the
module-level mutable counters and lookup tables are an explicit state
record threaded through the parsing functions.

Modelling notes:
  - Python float() values are modelled as exact rationals (plus infinities
    and nan); IEEE rounding is abstracted away.  No claim depends on float
    arithmetic, only on the shape of parse_location results.
  - int() and the numeric part of float() recognise ASCII digits; decimal
    digits of other scripts are outside the modelled data.
  - unicode.lower() is modelled for ASCII and Cyrillic letters, the only
    scripts appearing in the tables and the data.
  - dateutil.parser.parse is an external library, modelled as the identity
    on the attribute text (no claim concerns timestamp parsing).
-/

/-- Python whitespace (str.strip and the regex class for spaces), covering the
ASCII controls, space, NEL, NBSP and the Unicode space separators. -/
def isPySpace (c : Char) : Bool :=
  let n := c.toNat
  (9 ≤ n && n ≤ 13) || n == 32 || (28 ≤ n && n ≤ 31) || n == 0x85 || n == 0xa0 ||
  n == 0x1680 || (0x2000 ≤ n && n ≤ 0x200a) || n == 0x2028 || n == 0x2029 ||
  n == 0x202f || n == 0x205f || n == 0x3000

def isAsciiDigit (c : Char) : Bool := '0' ≤ c && c ≤ '9'

/-- unicode.lower for ASCII letters, the Cyrillic range U+0410..U+042F and the
extended range U+0400..U+040F (these cover every character in the source
tables and the street data). -/
def pyLower (c : Char) : Char :=
  if 'A' ≤ c && c ≤ 'Z' then Char.ofNat (c.toNat + 32)
  else if 'А' ≤ c && c ≤ 'Я' then Char.ofNat (c.toNat + 32)
  else if 'Ѐ' ≤ c && c ≤ 'Џ' then Char.ofNat (c.toNat + 80)
  else c

/-- Code-point-wise equality of character lists. -/
def charsEq : List Char → List Char → Bool
  | [], [] => true
  | a :: as, b :: bs => a == b && charsEq as bs
  | _, _ => false

/-- Code-point-wise string equality (Python ==). -/
def eqCP (a b : String) : Bool := charsEq a.data b.data

/-- One list is a leading segment of another, code-point-wise. -/
def isPrefixCPL : List Char → List Char → Bool
  | [], _ => true
  | _ :: _, [] => false
  | a :: as, b :: bs => a == b && isPrefixCPL as bs

/-- Python unicode.startswith. -/
def pyStartsWith (s pre : String) : Bool := isPrefixCPL pre.data s.data

/-- Python membership test of a string in a list of strings. -/
def strIn (s : String) (l : List String) : Bool := l.any (fun x => eqCP x s)

/-- Python unicode.strip(): drop leading and trailing whitespace. -/
def pyStripL (l : List Char) : List Char :=
  ((l.dropWhile isPySpace).reverse.dropWhile isPySpace).reverse

def pyStrip (s : String) : String := String.mk (pyStripL s.data)

def pyLowerStr (s : String) : String := String.mk (s.data.map pyLower)

/-- Python dict lookup d.get(k) / "k in d" on an association list. -/
def dictGet {α : Type} (d : List (String × α)) (k : String) : Option α :=
  match d with
  | [] => none
  | (k', v) :: rest => if eqCP k' k then some v else dictGet rest k

/-- Python dict assignment d[k] = v: overwrite in place or append. -/
def dictInsert {α : Type} (d : List (String × α)) (k : String) (v : α) :
    List (String × α) :=
  match d with
  | [] => [(k, v)]
  | (k', v') :: rest =>
    if eqCP k' k then (k', v) :: rest else (k', v') :: dictInsert rest k v

/-- defaultdict(int) increment d[k] += 1 (missing key counts as 0). -/
def dictIncrD (d : List (String × Nat)) (k : String) : List (String × Nat) :=
  match d with
  | [] => [(k, 1)]
  | (k', n) :: rest =>
    if eqCP k' k then (k', n + 1) :: rest else (k', n) :: dictIncrD rest k

/-- Errors escaping the Python functions: the custom SkipItem exception and
the fatal built-in exceptions. -/
inductive PyErr where
  | skipItem
  | keyError
  | valueError
deriving DecidableEq, Repr

/-- Plain-dict increment d[k] += 1: a missing key raises KeyError. -/
def dictIncrE (d : List (String × Nat)) (k : String) :
    Except PyErr (List (String × Nat)) :=
  match d with
  | [] => .error .keyError
  | (k', n) :: rest =>
    if eqCP k' k then .ok ((k', n + 1) :: rest)
    else (dictIncrE rest k).map (fun r => (k', n) :: r)

/-- Python str.replace for a nonempty pattern: replace every occurrence,
scanning left to right without overlap.  The fuel argument (one unit per
consumed character) makes the recursion structural; fuel = length of the
scanned list always suffices. -/
def replaceAllF (fuel : Nat) (pat rep : List Char) (l : List Char) : List Char :=
  match fuel, l with
  | 0, l => l
  | _ + 1, [] => []
  | fuel + 1, c :: cs =>
    if isPrefixCPL pat (c :: cs) then
      rep ++ replaceAllF fuel pat rep ((c :: cs).drop pat.length)
    else c :: replaceAllF fuel pat rep cs

/-- Python unicode.replace (all our patterns are nonempty). -/
def pyReplace (s pat rep : String) : String :=
  String.mk (replaceAllF s.data.length pat.data rep.data s.data)

/-- Python "a:b:c".split on a colon. -/
def splitOnColon : List Char → List (List Char)
  | [] => [[]]
  | c :: cs =>
    if c == ':' then [] :: splitOnColon cs
    else
      match splitOnColon cs with
      | [] => [[c]]
      | g :: gs => (c :: g) :: gs

def splitColon (s : String) : List String := (splitOnColon s.data).map String.mk

/-- Python 2 int(str): strip whitespace, optional sign, nonempty run of
decimal digits, nothing else. -/
def digitsToNat : List Char → Option Nat
  | [] => none
  | l => go l 0
where
  go : List Char → Nat → Option Nat
    | [], acc => some acc
    | c :: cs, acc =>
      if isAsciiDigit c then go cs (acc * 10 + (c.toNat - '0'.toNat)) else none

def pyInt (s : String) : Option Int :=
  match pyStripL s.data with
  | '+' :: ds => (digitsToNat ds).map Int.ofNat
  | '-' :: ds => (digitsToNat ds).map (fun n => -(n : Int))
  | ds => (digitsToNat ds).map Int.ofNat

/-- The value of a Python float: exact rational, signed infinity, or nan. -/
inductive PyFloat where
  | finite (q : Rat)
  | inf (neg : Bool)
  | nan
deriving DecidableEq, Repr

def ratPow10 (e : Int) : Rat :=
  if 0 ≤ e then ((10 : Rat) ^ e.toNat) else 1 / ((10 : Rat) ^ (-e).toNat)

def digitsVal (l : List Char) : Nat :=
  l.foldl (fun acc c => acc * 10 + (c.toNat - '0'.toNat)) 0

def charsEqCI (l : List Char) (pat : List Char) : Bool :=
  charsEq (l.map pyLower) pat

/-- Decimal part of float(): digits [. digits] [e|E [sign] digits], with at
least one mantissa digit and nothing left over. -/
def pyFloatDec (l : List Char) (neg : Bool) : Option PyFloat :=
  let ip := l.takeWhile isAsciiDigit
  let r1 := l.dropWhile isAsciiDigit
  let fp := match r1 with
    | '.' :: rest => rest.takeWhile isAsciiDigit
    | _ => []
  let r2 := match r1 with
    | '.' :: rest => rest.dropWhile isAsciiDigit
    | _ => r1
  if ip.isEmpty && fp.isEmpty then none
  else
    let mant : Rat := (digitsVal ip : Rat) + (digitsVal fp : Rat) / ((10 : Rat) ^ fp.length)
    let signed : Rat := if neg then -mant else mant
    match r2 with
    | [] => some (.finite signed)
    | 'e' :: rest => pyFloatExp signed rest
    | 'E' :: rest => pyFloatExp signed rest
    | _ => none
where
  pyFloatExp (m : Rat) (rest : List Char) : Option PyFloat :=
    let (eneg, ds) := match rest with
      | '+' :: ds => (false, ds)
      | '-' :: ds => (true, ds)
      | ds => (false, ds)
    if ds.isEmpty || !(ds.all isAsciiDigit) then none
    else
      let e : Int := if eneg then -(digitsVal ds : Int) else (digitsVal ds : Int)
      some (.finite (m * ratPow10 e))

/-- Python 2 float(str): strip whitespace, optional sign, then inf, infinity,
nan (case-insensitively) or a decimal literal. -/
def pyFloat (s : String) : Option PyFloat :=
  let body := fun (l : List Char) (neg : Bool) =>
    if charsEqCI l ['i', 'n', 'f'] || charsEqCI l ['i', 'n', 'f', 'i', 'n', 'i', 't', 'y'] then
      some (PyFloat.inf neg)
    else if charsEqCI l ['n', 'a', 'n'] then some PyFloat.nan
    else pyFloatDec l neg
  match pyStripL s.data with
  | '+' :: rest => body rest false
  | '-' :: rest => body rest true
  | rest => body rest false

/-! ## Data model -/

/-- A child of a node or way XML element: a tag child with its k and v
attributes, an nd child with its ref attribute, or any other child. -/
inductive Child where
  | tag (k v : String)
  | nd (ref : String)
  | other (name : String)
deriving DecidableEq, Repr

/-- One XML element during streaming traversal: tag name, attributes and
ordered children. -/
structure Element where
  tag : String
  attrs : List (String × String)
  children : List Child
deriving DecidableEq, Repr

/-- A value stored in the address sub-dictionary of a record. -/
inductive AddrVal where
  | intVal (n : Int)
  | strVal (s : String)
deriving DecidableEq, Repr

/-- The address sub-dictionary of a record. -/
abbrev Address := List (String × AddrVal)

/-- The record built by parse_element (the Python item dictionary; the user
sub-dictionary is flattened into the two fields it holds). -/
structure Item where
  id : Option String
  user_name : Option String
  user_id : Option String
  timestamp : String
  changeset : String
  version : String
  type : String
  location : Option (List PyFloat)
  node_refs : Option (List String)
  amenity : Option String
  name : Option String
  address : Option Address
deriving DecidableEq, Repr

/-- The three prefix lookup tables saved_bul, saved_str and saved_pl. -/
structure Tables where
  saved_bul : List (String × String)
  saved_str : List (String × String)
  saved_pl : List (String × String)
deriving DecidableEq, Repr

/-- The module-level mutable state of mapparser.py that the modelled control
flow reads or writes: the diagnostic counters and the lookup tables.  The
dictionaries that the modelled flow never touches (wrong_postcodes and the
dictionaries of the commented-out scan_tags call) are omitted. -/
structure PState where
  element_fields : List String
  missing_username : Nat
  missing_uid : Nat
  missing_location_data : List (String × Nat)
  fixme_codes : Nat
  address_types : List (String × Nat)
  street_names : List (String × Nat)
  lowered_street_names : List (String × Nat)
  tables : Tables
deriving DecidableEq, Repr

def initState : PState :=
  { element_fields := []
    missing_username := 0
    missing_uid := 0
    missing_location_data := [("lat", 0), ("lon", 0), ("node", 0), ("way", 0)]
    fixme_codes := 0
    address_types := []
    street_names := []
    lowered_street_names := []
    tables := { saved_bul := [], saved_str := [], saved_pl := [] } }

/-! ## Constant tables of the source -/

def COLLECTED_ITEMS : List String := ["node", "way"]

def POSITIONED_ITEMS : List String := ["node"]

def REFERENCE_ITEMS : List String := ["way"]

/-- The quote characters removed by correct_street_name (the bad_chars list
together with the straight quotes repeated in the regex class). -/
def bad_quote_chars : List Char := ['\'', '"', '”', '„', '“']

def manually_corrected_names : List String :=
  ["ул. Ген. Йосиф В. Гурко",
   "бул. Ген. Тотлебен",
   "бул. Цариградско шосе",
   "бул. Черни връх",
   "ул. Магнаурска школа",
   "ул. Стара планина",
   "бул. Витоша",
   "Цар Борис III",
   "Родопски извор",
   "Гоце Делчев",
   "Три уши",
   "Връх Манчо",
   "Черни връх",
   "Детелин войвода"]

/-- The dictionary built from manually_corrected_names: lowercased name to
correctly capitalised name. -/
def manual_street_names_ref : List (String × String) :=
  manually_corrected_names.foldl (fun d n => dictInsert d (pyLowerStr n) n) []

/-- Manual translations (the last key is the Cyrillic spelling with the
Ukrainian letter U+0406 written by some mappers). -/
def manually_translated_streets : List (String × String) :=
  [("Andrey Saharov Blvd", "Андрей Сахаров"),
   ("Atanas Kirchev", "Атанас Кирчев"),
   ("Boulevard Iskarsko Shose", "Искърско шосе"),
   ("Gen. Asen Nikolov", "Ген. Асен Николов"),
   ("Georgi S. Rakovski", "Георги С. Раковски"),
   ("Golyama mogila street", "Голяма Могила"),
   ("Gotse Delchev", "Гоце Делчев"),
   ("Kumata 1", "Кумата"),
   ("Madara", "Мадара"),
   ("Metodi Popov Str.", "Методи Попов"),
   ("Nikola Gabrovski", "Никола Габровски"),
   ("Panayot Volov", "Панайот Волов"),
   ("Pyrwa", "Първа Българска армия"),
   ("Slavyanska", "Славянска"),
   ("Srebarna", "Сребърна"),
   ("Tsarigradsko Chausse Blvd", "Цариградско шосе"),
   ("bul.Tzar Boris III", "Цар Борис III"),
   ("Цар Борис ІІІ", "Цар Борис III")]

/-! ## Field parsers -/

/-- parse_user: read the user and uid attributes, count missing ones. -/
def parse_user (st : PState) (e : Element) : PState × (Option String × Option String) :=
  let un := dictGet e.attrs ("user")
  let ui := dictGet e.attrs ("uid")
  let st := if un.isNone then { st with missing_username := st.missing_username + 1 } else st
  let st := if ui.isNone then { st with missing_uid := st.missing_uid + 1 } else st
  (st, (un, ui))

/-- parse_location: empty list when lat or lon is absent (counting the miss,
including the per-tag counter which raises KeyError for tags outside the
counter dictionary), otherwise the pair of parsed floats; float() failure is
a fatal ValueError. -/
def parse_location (st : PState) (e : Element) : PState × Except PyErr (List PyFloat) :=
  match dictGet e.attrs ("lat") with
  | none =>
    match dictIncrE st.missing_location_data ("lat") with
    | .error err => (st, .error err)
    | .ok d1 =>
      match dictIncrE d1 e.tag with
      | .error err => ({ st with missing_location_data := d1 }, .error err)
      | .ok d2 => ({ st with missing_location_data := d2 }, .ok [])
  | some lat =>
    match dictGet e.attrs ("lon") with
    | none =>
      match dictIncrE st.missing_location_data ("lon") with
      | .error err => (st, .error err)
      | .ok d1 => ({ st with missing_location_data := d1 }, .ok [])
    | some lon =>
      match pyFloat lat with
      | none => (st, .error .valueError)
      | some f1 =>
        match pyFloat lon with
        | none => (st, .error .valueError)
        | some f2 => (st, .ok [f1, f2])

/-- parse_common_field: return the attribute when present.  When it is
absent the source runs missing_common_fields[value] += 1 with value = None;
the keys of that counter dictionary are the three field names, so the None
lookup raises KeyError (the counter is never actually incremented). -/
def parse_common_field (e : Element) (field : String) : Except PyErr String :=
  match dictGet e.attrs field with
  | some v => .ok v
  | none => .error .keyError

/-- parse_node_refs: the ref attributes of the nd children, in document
order. -/
def parse_node_refs (e : Element) : List String :=
  e.children.filterMap (fun c =>
    match c with
    | .nd r => some r
    | _ => none)

/-- parse_postcode: int parse; in [1000, 2000) accepted, numeric but out of
range raises SkipItem; non-numeric FIXME or fixme bumps the fixme counter
and stores None; any other non-numeric value raises SkipItem.  The first
component is the fixme_codes counter threaded through. -/
def parse_postcode (fixme_codes : Nat) (code : String) : Nat × Except PyErr (Option Int) :=
  match pyInt code with
  | some numeric =>
    if 1000 ≤ numeric ∧ numeric < 2000 then (fixme_codes, .ok (some numeric))
    else (fixme_codes, .error .skipItem)
  | none =>
    if eqCP code ("FIXME") || eqCP code ("fixme") then (fixme_codes + 1, .ok none)
    else (fixme_codes, .error .skipItem)

/-- add_address_value: a None value is dropped; otherwise the address
sub-dictionary is created on demand and the field stored. -/
def add_address_value (addr : Option Address) (field : String) (value : Option AddrVal) :
    Option Address :=
  match value with
  | none => addr
  | some v => some (dictInsert (addr.getD []) field v)

/-- skip_street: street values that are links, housing-block markers or on
the manual exclude list are not stored. -/
def skip_street (orig_street_name : String) : Bool :=
  pyStartsWith orig_street_name ("http") ||
  pyStartsWith orig_street_name ("жк.") ||
  strIn orig_street_name ["no", "apartments", "c", "Tietotie"]

/-! ## Street name normalisation -/

/-- The full-word-to-abbreviation step of correct_street_name (lines 403-408
of the source, inlined there): at most one of the three substitutions fires,
checked in this order, and str.replace rewrites every occurrence of the
word, not only the leading one. -/
def full_word_substitution (s : String) : String :=
  if pyStartsWith s ("улица") then pyReplace s ("улица") ("ул.")
  else if pyStartsWith s ("булевард") then pyReplace s ("булевард") ("бул.")
  else if pyStartsWith s ("площад") then pyReplace s ("площад") ("пл.")
  else s

/-- The group-1 alternation of street_prefix_regex: at one position, try the
roots in the written order (their first letters differ, so at most one can
match), case-insensitively.  Returns the lowercased matched root and the
remaining characters. -/
def rootAt (l : List Char) : Option (List Char × List Char) :=
  match l with
  | a :: b :: c :: rest =>
    if pyLower a == 'б' && pyLower b == 'у' && pyLower c == 'л' then
      some (['б', 'у', 'л'], rest)
    else if pyLower a == 'у' && pyLower b == 'л' then some (['у', 'л'], c :: rest)
    else if pyLower a == 'п' && pyLower b == 'л' then some (['п', 'л'], c :: rest)
    else none
  | [a, b] =>
    if pyLower a == 'у' && pyLower b == 'л' then some (['у', 'л'], [])
    else if pyLower a == 'п' && pyLower b == 'л' then some (['п', 'л'], [])
    else none
  | _ => none

def headNonSpaceB : List Char → Bool
  | [] => false
  | c :: _ => !isPySpace c

/-- The separator alternation of street_prefix_regex with its lookahead:
space-dot, dot-space, dot, or space, each accepted only when followed by a
non-space character that is not consumed. -/
def sepTry (l : List Char) : Option (List Char) :=
  match l with
  | c1 :: c2 :: rest =>
    if isPySpace c1 && c2 == '.' && headNonSpaceB rest then some rest
    else if c1 == '.' && isPySpace c2 && headNonSpaceB rest then some rest
    else if c1 == '.' && headNonSpaceB (c2 :: rest) then some (c2 :: rest)
    else if isPySpace c1 && headNonSpaceB (c2 :: rest) then some (c2 :: rest)
    else none
  | _ => none

/-- A full match of street_prefix_regex at the head of the list: root, then
separator, then the lookahead. -/
def matchAt (l : List Char) : Option (List Char × List Char) :=
  match rootAt l with
  | some (root, rest1) => (sepTry rest1).map (fun rest2 => (root, rest2))
  | none => none

/-- street_prefix_regex.sub(lambda m: m.group(1).lower() + ". ", _): scan
left to right; at a match emit the lowercased root and a dot-space and resume
after the consumed separator; otherwise keep the character.  Fuel (one unit
per scanning step) makes the recursion structural; every step consumes at
least one character, so fuel = length always suffices. -/
def prefixSubF (fuel : Nat) (l : List Char) : List Char :=
  match fuel, l with
  | 0, l => l
  | _ + 1, [] => []
  | fuel + 1, c :: cs =>
    match matchAt (c :: cs) with
    | some (root, rest) => root ++ '.' :: ' ' :: prefixSubF fuel rest
    | none => c :: prefixSubF fuel cs

def street_prefix_regex_sub (s : String) : String :=
  String.mk (prefixSubF s.data.length s.data)

/-- correct_street_name: strip whitespace, remove quote characters, shorten a
leading full word, then the manual capitalisation table (keyed by the
lowercased name), the manual translation table, and finally the prefix
regex rewrite. -/
def correct_street_name (str_name : String) : String :=
  let s1 := String.mk ((pyStripL str_name.data).filter (fun c => !bad_quote_chars.contains c))
  let s2 := full_word_substitution s1
  match dictGet manual_street_names_ref (pyLowerStr s2) with
  | some v => v
  | none =>
    match dictGet manually_translated_streets s2 with
    | some v => v
    | none => street_prefix_regex_sub s2

/-! ## parse_element and parse_file -/

/-- Register a freshly corrected street name in the lookup table matching its
prefix class (lines 293-298): key is the name with every occurrence of the
prefix removed, lowercased. -/
def registerStreet (st : PState) (correct_name : String) : PState :=
  if pyStartsWith correct_name ("бул. ") then
    { st with tables := { st.tables with
        saved_bul := dictInsert st.tables.saved_bul
          (pyLowerStr (pyReplace correct_name ("бул. ") (""))) correct_name } }
  else if pyStartsWith correct_name ("ул. ") then
    { st with tables := { st.tables with
        saved_str := dictInsert st.tables.saved_str
          (pyLowerStr (pyReplace correct_name ("ул. ") (""))) correct_name } }
  else if pyStartsWith correct_name ("пл. ") then
    { st with tables := { st.tables with
        saved_pl := dictInsert st.tables.saved_pl
          (pyLowerStr (pyReplace correct_name ("пл. ") (""))) correct_name } }
  else st

/-- Dispatch on the second part of an addr:* tag key (the body of the
len(split) == 2 branch of parse_element). -/
def process_addr (st : PState) (item : Item) (f v : String) : PState × Except PyErr Item :=
  if eqCP f ("postcode") then
    match parse_postcode st.fixme_codes v with
    | (fix', .error err) => ({ st with fixme_codes := fix' }, .error err)
    | (fix', .ok pc) =>
      ({ st with fixme_codes := fix', address_types := dictIncrD st.address_types f },
       .ok { item with address := add_address_value item.address ("postcode") (pc.map AddrVal.intVal) })
  else if eqCP f ("street") && !skip_street v then
    let correct_name := correct_street_name v
    let st := { st with
        street_names := dictIncrD st.street_names correct_name
        lowered_street_names := dictIncrD st.lowered_street_names (pyLowerStr correct_name) }
    let item := { item with
        address := add_address_value item.address ("street") (some (.strVal correct_name)) }
    let st := registerStreet st correct_name
    ({ st with address_types := dictIncrD st.address_types f }, .ok item)
  else if eqCP f ("suburb") then
    ({ st with address_types := dictIncrD st.address_types f },
     .ok { item with address := add_address_value item.address ("suburb") (some (.strVal (pyStrip v))) })
  else ({ st with address_types := dictIncrD st.address_types f }, .ok item)

/-- One step of the sub-tag loop of parse_element. -/
def process_child (st : PState) (item : Item) (c : Child) : PState × Except PyErr Item :=
  match c with
  | .tag k v =>
    if eqCP k ("amenity") then (st, .ok { item with amenity := some (pyStrip v) })
    else if pyStartsWith k ("addr:") then
      match splitColon k with
      | [_, f] => process_addr st item f v
      | _ => (st, .ok item)
    else if eqCP k ("name") then (st, .ok { item with name := some (pyStrip v) })
    else (st, .ok item)
  | _ => (st, .ok item)

/-- The sub-tag loop of parse_element; a raised SkipItem aborts the loop but
the state mutations already performed survive. -/
def process_children (st : PState) (item : Item) : List Child → PState × Except PyErr Item
  | [] => (st, .ok item)
  | c :: cs =>
    match process_child st item c with
    | (st', .ok item') => process_children st' item' cs
    | (st', .error err) => (st', .error err)

/-- Record the attribute names seen on an element (the element_fields
audit list). -/
def addElementFields (fields : List String) : List (String × String) → List String
  | [] => fields
  | (k, _) :: rest =>
    if strIn k fields then addElementFields fields rest
    else addElementFields (fields ++ [k]) rest

/-- dateutil.parser.parse, an external library: modelled as the parsed
instant carrying the attribute text. -/
def dateutil_parse (s : String) : String := s

/-- parse_element: build the base record from the element attributes (a
missing timestamp, changeset or version attribute is a fatal KeyError from
parse_common_field), attach location and node references by element kind,
then run the sub-tag loop. -/
def parse_element (st : PState) (e : Element) : PState × Except PyErr Item :=
  let st := { st with element_fields := addElementFields st.element_fields e.attrs }
  match parse_user st e with
  | (st, u) =>
    match parse_common_field e ("timestamp") with
    | .error err => (st, .error err)
    | .ok ts =>
      match parse_common_field e ("changeset") with
      | .error err => (st, .error err)
      | .ok cset =>
        match parse_common_field e ("version") with
        | .error err => (st, .error err)
        | .ok ver =>
          let item : Item :=
            { id := dictGet e.attrs ("id")
              user_name := u.1
              user_id := u.2
              timestamp := dateutil_parse ts
              changeset := cset
              version := ver
              type := e.tag
              location := none
              node_refs := none
              amenity := none
              name := none
              address := none }
          match
            ((if strIn e.tag POSITIONED_ITEMS then
              match parse_location st e with
              | (st, .error err) => (st, .error err)
              | (st, .ok loc) => (st, .ok { item with location := some loc })
            else (st, .ok item)) : PState × Except PyErr Item) with
          | (st, .error err) => (st, .error err)
          | (st, .ok item) =>
            let item :=
              if strIn e.tag REFERENCE_ITEMS then
                { item with node_refs := some (parse_node_refs e) }
              else item
            process_children st item e.children

/-- parse_file: the first pass.  Elements whose tag is collected are parsed;
a SkipItem drops the single current record and bumps the skipped counter;
fatal errors abort the whole run.  Returns the final state, the skipped
count and the records in document order. -/
def parse_file (st : PState) : List Element → Except PyErr (PState × Nat × List Item)
  | [] => .ok (st, 0, [])
  | e :: rest =>
    if strIn e.tag COLLECTED_ITEMS then
      match parse_element st e with
      | (st', .ok item) =>
        (parse_file st' rest).map (fun r => (r.1, r.2.1, item :: r.2.2))
      | (st', .error .skipItem) =>
        (parse_file st' rest).map (fun r => (r.1, r.2.1 + 1, r.2.2))
      | (_, .error err) => .error err
    else parse_file st rest

/-! ## Second pass -/

/-- The lookup chain of the second pass (lines 485-493), reached only for a
street lacking a recognised prefix: the lowercased value is looked up in the
boulevard, street and square tables in that order, the fallback prepending
the generic street prefix to the original value. -/
def second_pass_street (t : Tables) (street_name : String) : String :=
  let street_name_lower := pyLowerStr street_name
  match dictGet t.saved_bul street_name_lower with
  | some v => v
  | none =>
    match dictGet t.saved_str street_name_lower with
    | some v => v
    | none =>
      match dictGet t.saved_pl street_name_lower with
      | some v => v
      | none => "ул. " ++ street_name

/-- The second-pass loop body for one record (lines 479-493): when an address
with a street is present and the street does not already start with one of
the three prefixes (period, no trailing space in this test), the street field
is reassigned from the lookup chain. -/
def second_pass_entry (t : Tables) (entry : Item) : Item :=
  match entry.address with
  | none => entry
  | some addr =>
    match dictGet addr ("street") with
    | some (.strVal street_name) =>
      if !pyStartsWith street_name ("ул.") && !pyStartsWith street_name ("бул.") &&
         !pyStartsWith street_name ("пл.") then
        { entry with
          address := some (dictInsert addr ("street")
            (.strVal (second_pass_street t street_name))) }
      else entry
    | _ => entry

/-- The whole pipeline of the __main__ block: first pass, then the second
pass over every record with the tables learned in the first pass. -/
def process_data (elems : List Element) : Except PyErr (Nat × List Item) :=
  match parse_file initState elems with
  | .ok (st, skipped, items) => .ok (skipped, items.map (second_pass_entry st.tables))
  | .error err => .error err

/-! ## Projections and concrete fixtures used by the verification -/

/-- The street field of a record, when present. -/
def item_street (it : Item) : Option String :=
  match it.address with
  | some addr =>
    match dictGet addr ("street") with
    | some (.strVal s) => some s
    | _ => none
  | none => none

/-- The records of a first-pass run (empty on a fatal run). -/
def run_records (r : Except PyErr (PState × Nat × List Item)) : List Item :=
  match r with
  | .ok (_, _, items) => items
  | .error _ => []

/-- The skipped-item count of a first-pass run. -/
def run_skipped (r : Except PyErr (PState × Nat × List Item)) : Nat :=
  match r with
  | .ok (_, sk, _) => sk
  | .error _ => 0

/-- The lookup tables left by a first-pass run. -/
def run_tables (r : Except PyErr (PState × Nat × List Item)) : Tables :=
  match r with
  | .ok (st, _, _) => st.tables
  | .error _ => { saved_bul := [], saved_str := [], saved_pl := [] }

/-- Records after both passes. -/
def pipeline_records (elems : List Element) : List Item :=
  match process_data elems with
  | .ok (_, items) => items
  | .error _ => []

/-- Skipped count reported by the whole pipeline. -/
def pipeline_skipped (elems : List Element) : Nat :=
  match process_data elems with
  | .ok (sk, _) => sk
  | .error _ => 0

/-- A node whose addr:street tag precedes an addr:postcode tag with an
out-of-range value. -/
def elem_street_then_bad_postcode : Element :=
  { tag := "node"
    attrs := [("id", "1"), ("timestamp", "2020-01-01T00:00:00Z"),
              ("changeset", "10"), ("version", "2")]
    children := [Child.tag "addr:street" "бул. Примерна",
                 Child.tag "addr:postcode" "2500"] }

/-- A node carrying the same street name without any prefix. -/
def elem_unprefixed_street : Element :=
  { tag := "node"
    attrs := [("id", "2"), ("timestamp", "2020-01-01T00:00:00Z"),
              ("changeset", "11"), ("version", "1")]
    children := [Child.tag "addr:street" "Примерна"] }

/-- A node whose street value is the bare abbreviation with no trailing
space; correct_street_name leaves it alone (the lookahead of the prefix
regex needs a following non-space character). -/
def elem_ul_dot : Element :=
  { tag := "node"
    attrs := [("id", "3"), ("timestamp", "2020-01-01T00:00:00Z"),
              ("changeset", "12"), ("version", "1")]
    children := [Child.tag "addr:street" "ул."] }

/-! ## Claim-modelled definitions (for the refinement comparisons) -/

/-- Modelled from the claim C1 wording: the already-prefixed test uses the
three prefixes WITH the period and a trailing space; otherwise the lookups
and the fallback are as in the source. -/
def second_pass_street_claim (t : Tables) (street_name : String) : String :=
  if !pyStartsWith street_name ("ул. ") && !pyStartsWith street_name ("бул. ") &&
     !pyStartsWith street_name ("пл. ") then
    let street_name_lower := pyLowerStr street_name
    match dictGet t.saved_bul street_name_lower with
    | some v => v
    | none =>
      match dictGet t.saved_str street_name_lower with
      | some v => v
      | none =>
        match dictGet t.saved_pl street_name_lower with
        | some v => v
        | none => "ул. " ++ street_name
  else street_name

/-- Modelled from the claim C6 wording: the substitution replaces only the
leading word, the occurrence at the start of the string. -/
def full_word_substitution_claim (s : String) : String :=
  if pyStartsWith s ("улица") then "ул." ++ String.mk (s.data.drop 5)
  else if pyStartsWith s ("булевард") then "бул." ++ String.mk (s.data.drop 8)
  else if pyStartsWith s ("площад") then "пл." ++ String.mk (s.data.drop 6)
  else s

/-! ## Claim C4 -/

/-- Claim C4 (code bug): parse_common_field is claimed never to fail, but on
an element missing the requested attribute the source runs
missing_common_fields[None] += 1, and None is not a key of that plain
dictionary, so the call raises KeyError instead of returning None.  On a
present attribute the value is passed through. -/
theorem c4_parse_common_field_raises_keyerror :
    parse_common_field { tag := "node", attrs := [("id", "1")], children := [] } ("version") =
      .error .keyError ∧
    parse_common_field { tag := "node", attrs := [("id", "1"), ("version", "2")], children := [] }
      ("version") = .ok "2" :=
  ⟨rfl, rfl⟩

/-! ## Claim C9 -/

/-- Claim C9: lookup-table writes survive a record skip.  In
elem_street_then_bad_postcode the addr:street tag precedes the addr:postcode
tag whose value 2500 raises SkipItem; the element contributes no record and
the skip is counted, yet the boulevard table keeps the entry written before
the raise, and the second pass uses that entry to rewrite the other record
to the canonical prefixed form. -/
theorem c9_table_writes_survive_skip :
    elem_street_then_bad_postcode.children =
      [Child.tag "addr:street" "бул. Примерна", Child.tag "addr:postcode" "2500"] ∧
    (parse_postcode 0 ("2500")).2 = .error .skipItem ∧
    run_skipped (parse_file initState [elem_street_then_bad_postcode, elem_unprefixed_street]) = 1 ∧
    (run_records (parse_file initState [elem_street_then_bad_postcode, elem_unprefixed_street])).map
      Item.id = [some "2"] ∧
    (run_records (parse_file initState [elem_street_then_bad_postcode, elem_unprefixed_street])).map
      item_street = [some "Примерна"] ∧
    dictGet (run_tables (parse_file initState
      [elem_street_then_bad_postcode, elem_unprefixed_street])).saved_bul ("примерна") =
      some "бул. Примерна" ∧
    (pipeline_records [elem_street_then_bad_postcode, elem_unprefixed_street]).map item_street =
      [some "бул. Примерна"] :=
  ⟨rfl, rfl, rfl, rfl, rfl, rfl, rfl⟩

/-! ## Claim C10 -/

/-- Claim C10: the prefix-casing regex is not anchored to word boundaries.
The name does not sit in either manual table, yet correct_street_name finds
the street root inside the word followed by a space and a non-space
character and rewrites it, inserting a period inside the word. -/
theorem c10_prefix_regex_unanchored :
    dictGet manual_street_names_ref (pyLowerStr "Раул Иванов") = none ∧
    dictGet manually_translated_streets ("Раул Иванов") = none ∧
    correct_street_name ("Раул Иванов") = "Раул. Иванов" ∧
    ("Раул. Иванов" : String) ≠ "Раул Иванов" :=
  ⟨rfl, rfl, rfl, by decide⟩

/-! ## Claim C1, counterexample -/

/-- Claim C1 as stated is false on the code: the pass-one record street
value is the bare abbreviation with a period and no trailing space, so it
does not start with any of the three prefix strings of the claim (period
and trailing space), and under the claim wording it would be looked up (the
tables of this run are empty) and rewritten to the fallback; the code tests
the prefixes without the trailing space and leaves the value unchanged. -/
theorem c1_second_pass_prefix_space_counterexample :
    (run_records (parse_file initState [elem_ul_dot])).map item_street = [some "ул."] ∧
    run_tables (parse_file initState [elem_ul_dot]) =
      { saved_bul := [], saved_str := [], saved_pl := [] } ∧
    pyStartsWith ("ул.") ("ул. ") = false ∧
    (pipeline_records [elem_ul_dot]).map item_street = [some "ул."] ∧
    second_pass_street_claim (run_tables (parse_file initState [elem_ul_dot])) ("ул.") = "ул. ул." ∧
    ("ул." : String) ≠ "ул. ул." :=
  ⟨rfl, rfl, rfl, rfl, rfl, by decide⟩

/-! ## Claim C6, counterexample -/

/-- Claim C6 as stated is false on the code: on a string that starts with
the full word and contains it a second time, str.replace rewrites both
occurrences, while the claim prescribes replacing only the leading word. -/
theorem c6_full_word_leading_only_counterexample :
    full_word_substitution ("улица улица") = "ул. ул." ∧
    full_word_substitution_claim ("улица улица") = "ул. улица" ∧
    ("ул. ул." : String) ≠ "ул. улица" :=
  ⟨rfl, rfl, by decide⟩

/-! ## Helper lemmas about the string primitives -/

theorem charsEq_iff (l1 l2 : List Char) : charsEq l1 l2 = true ↔ l1 = l2 := by
  induction l1 generalizing l2 with
  | nil => cases l2 <;> simp [charsEq]
  | cons a as ih => cases l2 <;> simp [charsEq, ih]

theorem eqCP_iff (a b : String) : eqCP a b = true ↔ a = b := by
  unfold eqCP
  rw [charsEq_iff]
  exact ⟨fun h => String.ext h, fun h => by rw [h]⟩

theorem eqCP_self (a : String) : eqCP a a = true := (eqCP_iff a a).2 rfl

/-! ## Claim C2 -/

/-- Claim C2: parse_postcode returns the parsed integer for a numeric string
in [1000, 2000), raises the record-skip signal for a numeric string outside
that range, returns None and bumps the fixme counter exactly for the
non-numeric strings FIXME and fixme, and raises the record-skip signal for
every other non-numeric string; with the four concrete example values. -/
theorem c2_parse_postcode_spec (f : Nat) (s : String) :
    (∀ n : Int, pyInt s = some n →
      ((1000 ≤ n ∧ n < 2000) → parse_postcode f s = (f, .ok (some n))) ∧
      (¬(1000 ≤ n ∧ n < 2000) → parse_postcode f s = (f, .error .skipItem))) ∧
    (pyInt s = none →
      ((s = "FIXME" ∨ s = "fixme") → parse_postcode f s = (f + 1, .ok none)) ∧
      (s ≠ "FIXME" → s ≠ "fixme" → parse_postcode f s = (f, .error .skipItem))) ∧
    parse_postcode f ("1500") = (f, .ok (some 1500)) ∧
    parse_postcode f ("999") = (f, .error .skipItem) ∧
    parse_postcode f ("abc") = (f, .error .skipItem) ∧
    parse_postcode f ("FIXME") = (f + 1, .ok none) := by
  refine ⟨?_, ?_, rfl, rfl, rfl, rfl⟩
  · intro n hn
    constructor
    · intro hr
      simp [parse_postcode, hn, hr]
    · intro hr
      simp [parse_postcode, hn, hr]
  · intro hn
    constructor
    · intro hf
      rcases hf with rfl | rfl <;> simp [parse_postcode, hn, eqCP_self]
    · intro h1 h2
      have e1 : eqCP s ("FIXME") = false := by
        cases he : eqCP s ("FIXME") with
        | false => rfl
        | true => exact absurd ((eqCP_iff s ("FIXME")).1 he) h1
      have e2 : eqCP s ("fixme") = false := by
        cases he : eqCP s ("fixme") with
        | false => rfl
        | true => exact absurd ((eqCP_iff s ("fixme")).1 he) h2
      simp [parse_postcode, hn, e1, e2]

/-- Witness for C2 at the concrete inputs 1500 and 2500. -/
theorem c2_parse_postcode_spec_witness :
    parse_postcode 0 ("1500") = (0, .ok (some 1500)) ∧
    parse_postcode 0 ("2500") = (0, .error .skipItem) :=
  ⟨((c2_parse_postcode_spec 0 ("1500")).1 1500 rfl).1 (by decide),
   ((c2_parse_postcode_spec 0 ("2500")).1 2500 rfl).2 (by decide)⟩

/-! ## Claim C8 -/

/-- Claim C8: for a node element, parse_location returns exactly the pair
[lat, lon] as parsed floats in that order when both attributes are present
and numeric; an absent lat or lon yields the empty list, never a partial
pair; and non-numeric text in a present lat or lon attribute is a fatal
ValueError, not a record skip.  The hypothesis on the state records the
shape of the missing-location counter dictionary (its four keys, as
initialised by the module and preserved by every update). -/
theorem c8_parse_location_spec (st : PState) (e : Element) (la lo : String) (f1 f2 : PyFloat)
    (htag : e.tag = "node")
    (hmld : st.missing_location_data.map Prod.fst = ["lat", "lon", "node", "way"]) :
    (dictGet e.attrs ("lat") = some la → dictGet e.attrs ("lon") = some lo →
      pyFloat la = some f1 → pyFloat lo = some f2 →
      (parse_location st e).2 = .ok [f1, f2]) ∧
    (dictGet e.attrs ("lat") = none → (parse_location st e).2 = .ok []) ∧
    (dictGet e.attrs ("lat") = some la → dictGet e.attrs ("lon") = none →
      (parse_location st e).2 = .ok []) ∧
    (dictGet e.attrs ("lat") = some la → dictGet e.attrs ("lon") = some lo →
      pyFloat la = none → (parse_location st e).2 = .error .valueError) ∧
    (dictGet e.attrs ("lat") = some la → dictGet e.attrs ("lon") = some lo →
      pyFloat la = some f1 → pyFloat lo = none → (parse_location st e).2 = .error .valueError) := by
  rcases hd : st.missing_location_data with _ | ⟨⟨k1, a⟩, _ | ⟨⟨k2, b⟩, _ | ⟨⟨k3, c⟩, _ | ⟨⟨k4, d4⟩, rest⟩⟩⟩⟩ <;>
    rw [hd] at hmld <;> simp at hmld
  obtain ⟨rfl, rfl, rfl, rfl, hrest⟩ := hmld
  subst hrest
  refine ⟨?_, ?_, ?_, ?_, ?_⟩
  · intro hlat hlon hf1 hf2
    simp [parse_location, hlat, hlon, hf1, hf2]
  · intro hlat
    simp [parse_location, hlat, hd, htag, dictIncrE, eqCP]
    rfl
  · intro hlat hlon
    simp [parse_location, hlat, hlon, hd, dictIncrE, eqCP]
    rfl
  · intro hlat hlon hf1
    simp [parse_location, hlat, hlon, hf1]
  · intro hlat hlon hf1 hf2
    simp [parse_location, hlat, hlon, hf1, hf2]

theorem option_eq_some_getD {α : Type} (o : Option α) (d : α) (h : o.isSome = true) :
    o = some (o.getD d) := by
  cases o with
  | none => exact absurd h (by simp)
  | some x => rfl

/-- Witness for C8: a node with lat 42.0 and lon 23.0 parses to the ordered
float pair. -/
theorem c8_parse_location_spec_witness :
    (parse_location initState
      { tag := "node", attrs := [("lat", "42.0"), ("lon", "23.0")], children := [] }).2 =
      .ok [(pyFloat ("42.0")).getD PyFloat.nan, (pyFloat ("23.0")).getD PyFloat.nan] :=
  (c8_parse_location_spec initState
    { tag := "node", attrs := [("lat", "42.0"), ("lon", "23.0")], children := [] }
    ("42.0") ("23.0") ((pyFloat ("42.0")).getD PyFloat.nan) ((pyFloat ("23.0")).getD PyFloat.nan)
    rfl rfl).1 rfl rfl
    (option_eq_some_getD _ _ rfl) (option_eq_some_getD _ _ rfl)

/-! ## Replacement lemmas -/

theorem isPrefixCPL_append_self (p t : List Char) : isPrefixCPL p (p ++ t) = true := by
  induction p with
  | nil => rfl
  | cons c cs ih => simp [isPrefixCPL, ih]

theorem replaceAllF_nil (f : Nat) (pat rep : List Char) : replaceAllF f pat rep [] = [] := by
  cases f <;> rfl

theorem replaceAllF_fuel (pat rep : List Char) (hp : pat ≠ []) :
    ∀ (f1 : Nat) (l : List Char) (f2 : Nat), l.length ≤ f1 → l.length ≤ f2 →
      replaceAllF f1 pat rep l = replaceAllF f2 pat rep l := by
  intro f1
  induction f1 with
  | zero =>
    intro l f2 h1 _
    have : l = [] := List.eq_nil_of_length_eq_zero (Nat.le_zero.1 h1)
    subst this
    rw [replaceAllF_nil, replaceAllF_nil]
  | succ f ih =>
    intro l f2 h1 h2
    cases l with
    | nil => rw [replaceAllF_nil, replaceAllF_nil]
    | cons c cs =>
      cases f2 with
      | zero => exact absurd h2 (by simp)
      | succ f2 =>
        have hplen : 1 ≤ pat.length := by
          cases pat with
          | nil => exact absurd rfl hp
          | cons a as => simp
        show replaceAllF (f + 1) pat rep (c :: cs) = replaceAllF (f2 + 1) pat rep (c :: cs)
        simp only [replaceAllF]
        cases hpre : isPrefixCPL pat (c :: cs) with
        | true =>
          simp only [hpre, if_true]
          have hdrop : ((c :: cs).drop pat.length).length ≤ cs.length := by
            rw [List.length_drop]
            simp only [List.length_cons]
            omega
          have e := ih ((c :: cs).drop pat.length) f2
            (le_trans hdrop (Nat.le_of_succ_le_succ h1))
            (le_trans hdrop (Nat.le_of_succ_le_succ h2))
          rw [e]
        | false =>
          simp only [hpre, Bool.false_eq_true, if_false]
          have e := ih cs f2 (Nat.le_of_succ_le_succ h1) (Nat.le_of_succ_le_succ h2)
          rw [e]

theorem replaceAllF_append (pat rep t : List Char) (hp : pat ≠ []) :
    replaceAllF (pat ++ t).length pat rep (pat ++ t) =
      rep ++ replaceAllF t.length pat rep t := by
  cases pat with
  | nil => exact absurd rfl hp
  | cons c cs =>
    have hlen : ((c :: cs) ++ t).length = (cs ++ t).length + 1 := by simp
    rw [hlen]
    show replaceAllF ((cs ++ t).length + 1) (c :: cs) rep (c :: (cs ++ t)) = _
    simp only [replaceAllF]
    have hpre : isPrefixCPL (c :: cs) (c :: (cs ++ t)) = true := isPrefixCPL_append_self (c :: cs) t
    rw [hpre]
    simp only [if_true]
    have hdrop : (c :: (cs ++ t)).drop (c :: cs).length = t := List.drop_left (c :: cs) t
    rw [hdrop]
    have := replaceAllF_fuel (c :: cs) rep hp (cs ++ t).length t t.length
      (by simp) (le_refl _)
    rw [this]

theorem pyReplace_append (p t rep : String) (hp : p.data ≠ []) :
    pyReplace (p ++ t) p rep = rep ++ pyReplace t p rep := by
  apply String.ext
  show replaceAllF (p ++ t).data.length p.data rep.data (p ++ t).data =
    rep.data ++ replaceAllF t.data.length p.data rep.data t.data
  rw [String.data_append]
  exact replaceAllF_append p.data rep.data t.data hp

/-! ## Claim C6, amended -/

/-- Claim C6 amended: on a quote-stripped, trimmed string the three full-word
substitutions are checked in priority order and at most one fires (their
first letters make the prefix tests mutually exclusive); the firing
substitution rewrites the leading word and additionally every later
occurrence of the word (Python str.replace); a string starting with none of
the three words is unchanged. -/
theorem c6_full_word_substitution_amended (t : String) :
    full_word_substitution ("улица" ++ t) = "ул." ++ pyReplace t ("улица") ("ул.") ∧
    full_word_substitution ("булевард" ++ t) = "бул." ++ pyReplace t ("булевард") ("бул.") ∧
    full_word_substitution ("площад" ++ t) = "пл." ++ pyReplace t ("площад") ("пл.") ∧
    (∀ s : String, pyStartsWith s ("улица") = false → pyStartsWith s ("булевард") = false →
      pyStartsWith s ("площад") = false → full_word_substitution s = s) := by
  refine ⟨?_, ?_, ?_, ?_⟩
  · have h : pyStartsWith ("улица" ++ t) ("улица") = true := by
      show isPrefixCPL ("улица").data ("улица" ++ t).data = true
      rw [String.data_append]
      exact isPrefixCPL_append_self _ _
    simp only [full_word_substitution, h, if_true]
    exact pyReplace_append ("улица") t ("ул.") (by decide)
  · have h1 : pyStartsWith ("булевард" ++ t) ("улица") = false := rfl
    have h : pyStartsWith ("булевард" ++ t) ("булевард") = true := by
      show isPrefixCPL ("булевард").data ("булевард" ++ t).data = true
      rw [String.data_append]
      exact isPrefixCPL_append_self _ _
    simp only [full_word_substitution, h1, h, if_true, Bool.false_eq_true, if_false]
    exact pyReplace_append ("булевард") t ("бул.") (by decide)
  · have h1 : pyStartsWith ("площад" ++ t) ("улица") = false := rfl
    have h2 : pyStartsWith ("площад" ++ t) ("булевард") = false := rfl
    have h : pyStartsWith ("площад" ++ t) ("площад") = true := by
      show isPrefixCPL ("площад").data ("площад" ++ t).data = true
      rw [String.data_append]
      exact isPrefixCPL_append_self _ _
    simp only [full_word_substitution, h1, h2, h, if_true, Bool.false_eq_true, if_false]
    exact pyReplace_append ("площад") t ("пл.") (by decide)
  · intro s h1 h2 h3
    simp [full_word_substitution, h1, h2, h3]

/-- Witness for C6 amended: the leading word and the later occurrence are
both rewritten, and a string starting with no keyword is unchanged. -/
theorem c6_full_word_substitution_amended_witness :
    full_word_substitution ("улица" ++ " улица") = "ул." ++ pyReplace (" улица") ("улица") ("ул.") ∧
    full_word_substitution ("Витоша") = "Витоша" :=
  ⟨(c6_full_word_substitution_amended (" улица")).1,
   (c6_full_word_substitution_amended ("")).2.2.2 ("Витоша") rfl rfl rfl⟩

/-! ## Claim C1, amended -/

theorem dictGet_dictInsert_self {α : Type} (d : List (String × α)) (k : String) (v : α) :
    dictGet (dictInsert d k v) k = some v := by
  induction d with
  | nil => simp [dictInsert, dictGet, eqCP_self]
  | cons p rest ih =>
    obtain ⟨k', v'⟩ := p
    cases h : eqCP k' k with
    | true => simp [dictInsert, dictGet, h]
    | false => simp [dictInsert, dictGet, h, ih]

/-- Claim C1 amended: for every record carrying an address street, the second
pass leaves the value alone when it starts with one of the three prefixes
WITHOUT requiring the trailing space; otherwise the lowercased value is
looked up in the boulevard, then street, then square table (first hit wins),
and the generic street prefix is prepended to the original value when no
table contains it. -/
theorem c1_second_pass_amended (t : Tables) (entry : Item) (addr : Address) (s : String)
    (h1 : entry.address = some addr) (h2 : dictGet addr ("street") = some (.strVal s)) :
    ((pyStartsWith s ("ул.") || pyStartsWith s ("бул.") || pyStartsWith s ("пл.")) = true →
      second_pass_entry t entry = entry) ∧
    ((pyStartsWith s ("ул.") || pyStartsWith s ("бул.") || pyStartsWith s ("пл.")) = false →
      item_street (second_pass_entry t entry) =
        some ((((dictGet t.saved_bul (pyLowerStr s)).or (dictGet t.saved_str (pyLowerStr s))).or
          (dictGet t.saved_pl (pyLowerStr s))).getD ("ул. " ++ s))) := by
  have hcond : (!pyStartsWith s ("ул.") && !pyStartsWith s ("бул.") && !pyStartsWith s ("пл.")) =
      !(pyStartsWith s ("ул.") || pyStartsWith s ("бул.") || pyStartsWith s ("пл.")) := by
    rw [Bool.not_or, Bool.not_or]
  constructor
  · intro h
    simp [second_pass_entry, h1, h2, hcond, h]
  · intro h
    simp only [second_pass_entry, h1, h2, hcond, h, Bool.not_false, if_true]
    simp only [item_street, dictGet_dictInsert_self]
    unfold second_pass_street
    cases hb : dictGet t.saved_bul (pyLowerStr s) <;>
      cases hs : dictGet t.saved_str (pyLowerStr s) <;>
      cases hp : dictGet t.saved_pl (pyLowerStr s) <;>
      simp [hb, hs, hp, Option.or]

/-- Witness for C1 amended, the reconciler scenario of the spec: a boulevard
table entry for витоша rewrites an unprefixed Витоша record, and an already
prefixed record is untouched. -/
theorem c1_second_pass_amended_witness :
    item_street (second_pass_entry
      { saved_bul := [("витоша", "бул. Витоша")], saved_str := [], saved_pl := [] }
      { id := some "7", user_name := none, user_id := none, timestamp := "t",
        changeset := "c", version := "1", type := "node", location := none,
        node_refs := none, amenity := none, name := none,
        address := some [("street", .strVal "Витоша")] }) = some "бул. Витоша" ∧
    second_pass_entry
      { saved_bul := [("витоша", "бул. Витоша")], saved_str := [], saved_pl := [] }
      { id := some "8", user_name := none, user_id := none, timestamp := "t",
        changeset := "c", version := "1", type := "node", location := none,
        node_refs := none, amenity := none, name := none,
        address := some [("street", .strVal "ул. Витоша")] } =
      { id := some "8", user_name := none, user_id := none, timestamp := "t",
        changeset := "c", version := "1", type := "node", location := none,
        node_refs := none, amenity := none, name := none,
        address := some [("street", .strVal "ул. Витоша")] } :=
  ⟨(c1_second_pass_amended
      { saved_bul := [("витоша", "бул. Витоша")], saved_str := [], saved_pl := [] }
      { id := some "7", user_name := none, user_id := none, timestamp := "t",
        changeset := "c", version := "1", type := "node", location := none,
        node_refs := none, amenity := none, name := none,
        address := some [("street", .strVal "Витоша")] }
      [("street", .strVal "Витоша")] ("Витоша") rfl rfl).2 rfl,
   (c1_second_pass_amended
      { saved_bul := [("витоша", "бул. Витоша")], saved_str := [], saved_pl := [] }
      { id := some "8", user_name := none, user_id := none, timestamp := "t",
        changeset := "c", version := "1", type := "node", location := none,
        node_refs := none, amenity := none, name := none,
        address := some [("street", .strVal "ул. Витоша")] }
      [("street", .strVal "ул. Витоша")] ("ул. Витоша") rfl rfl).1 rfl⟩

/-! ## Claim C3 -/

theorem parse_file_append (st : PState) (l1 l2 : List Element) :
    parse_file st (l1 ++ l2) =
      match parse_file st l1 with
      | .ok (s1, k1, its1) =>
        (parse_file s1 l2).map (fun r => (r.1, k1 + r.2.1, its1 ++ r.2.2))
      | .error err => .error err := by
  induction l1 generalizing st with
  | nil =>
    simp only [List.nil_append, parse_file]
    cases hr : parse_file st l2 with
    | ok r =>
      obtain ⟨s, k, its⟩ := r
      simp [Except.map]
    | error e => simp [Except.map]
  | cons e l1 ih =>
    show parse_file st (e :: (l1 ++ l2)) = _
    simp only [parse_file]
    cases hc : strIn e.tag COLLECTED_ITEMS with
    | false =>
      simp only [Bool.false_eq_true, if_false]
      exact ih st
    | true =>
      simp only [if_true]
      cases hpe : parse_element st e with
      | mk st' res =>
        cases res with
        | ok item =>
          dsimp only
          rw [ih st']
          cases h1 : parse_file st' l1 with
          | ok r1 =>
            obtain ⟨s1, k1, its1⟩ := r1
            cases h2 : parse_file s1 l2 with
            | ok r2 =>
              obtain ⟨s2, k2, its2⟩ := r2
              simp [Except.map, h2]
            | error err2 => simp [Except.map, h2]
          | error err1 => simp [Except.map, h1]
        | error err =>
          cases err with
          | skipItem =>
            dsimp only
            rw [ih st']
            cases h1 : parse_file st' l1 with
            | ok r1 =>
              obtain ⟨s1, k1, its1⟩ := r1
              cases h2 : parse_file s1 l2 with
              | ok r2 =>
                obtain ⟨s2, k2, its2⟩ := r2
                simp [Except.map, h2]
                omega
              | error err2 => simp [Except.map, h2]
            | error err1 => simp [Except.map, h1]
          | keyError => simp [Except.map]
          | valueError => simp [Except.map]

/-- Claim C3: a record-skip is per-record and the run continues.  When the
prefix of the document parses normally and the next element is a collected
element that raises the skip signal (here because one of its addr:postcode
values raises SkipItem), the element contributes no record at all to the
output, the skipped counter is incremented once for it, and the rest of the
document is processed from the state the element left behind, its records
following the prefix records in document order. -/
theorem c3_record_skip_per_record (st st1 : PState) (pre post : List Element) (e : Element)
    (sk1 : Nat) (items1 : List Item)
    (hcol : strIn e.tag COLLECTED_ITEMS = true)
    (hpre : parse_file st pre = .ok (st1, sk1, items1))
    (hcause : ∃ v, Child.tag "addr:postcode" v ∈ e.children ∧
      (parse_postcode 0 v).2 = .error .skipItem)
    (hskip : (parse_element st1 e).2 = .error .skipItem) :
    parse_file st (pre ++ e :: post) =
      (parse_file (parse_element st1 e).1 post).map
        (fun r => (r.1, sk1 + (r.2.1 + 1), items1 ++ r.2.2)) := by
  rw [parse_file_append, hpre]
  dsimp only
  have hstep : parse_file st1 (e :: post) =
      (parse_file (parse_element st1 e).1 post).map (fun r => (r.1, r.2.1 + 1, r.2.2)) := by
    simp only [parse_file, hcol, if_true]
    cases hpe : parse_element st1 e with
    | mk st' res =>
      have hres : res = Except.error PyErr.skipItem := by
        rw [hpe] at hskip
        exact hskip
      subst hres
      dsimp only
  rw [hstep]
  cases h2 : parse_file (parse_element st1 e).1 post with
  | ok r2 =>
    obtain ⟨s2, k2, its2⟩ := r2
    simp [Except.map]
  | error err2 => simp [Except.map]

/-- Witness for C3: the postcode 2500 drops only its own record; the
following valid node is still parsed, from the state the skipped element
left behind. -/
theorem c3_record_skip_per_record_witness :
    parse_file initState ([] ++ elem_street_then_bad_postcode :: [elem_unprefixed_street]) =
      (parse_file (parse_element initState elem_street_then_bad_postcode).1
        [elem_unprefixed_street]).map
        (fun r => (r.1, 0 + (r.2.1 + 1), [] ++ r.2.2)) :=
  c3_record_skip_per_record initState initState [] [elem_unprefixed_street]
    elem_street_then_bad_postcode 0 [] rfl rfl
    ⟨"2500", by decide, rfl⟩ rfl

/-! ## Claim C7 -/

/-- Whether a sub-tag stores a value into the address sub-dictionary when
parse_element processes it: an addr:* key with exactly two colon parts whose
second part is a postcode parsing to an accepted value, a street not
rejected by skip_street, or a suburb. -/
def storesAddrValue (c : Child) : Bool :=
  match c with
  | .tag k v =>
    if eqCP k ("amenity") then false
    else if pyStartsWith k ("addr:") then
      match splitColon k with
      | [_, f] =>
        if eqCP f ("postcode") then
          match (parse_postcode 0 v).2 with
          | .ok (some _) => true
          | _ => false
        else if eqCP f ("street") && !skip_street v then true
        else eqCP f ("suburb")
      | _ => false
    else false
  | _ => false

theorem parse_postcode_snd (f1 f2 : Nat) (v : String) :
    (parse_postcode f1 v).2 = (parse_postcode f2 v).2 := by
  unfold parse_postcode
  cases pyInt v <;> dsimp only <;> split <;> rfl

theorem process_addr_address (st : PState) (item : Item) (f v : String)
    (st' : PState) (item' : Item)
    (h : process_addr st item f v = (st', .ok item')) :
    (item'.address ≠ none ↔ (item.address ≠ none ∨
      (if eqCP f ("postcode") then
        (match (parse_postcode 0 v).2 with
         | .ok (some _) => true
         | _ => false)
       else if eqCP f ("street") && !skip_street v then true
       else eqCP f ("suburb")) = true)) := by
  cases hf : eqCP f ("postcode") with
  | true =>
    simp only [process_addr, hf, if_true] at h
    cases hpp : parse_postcode st.fixme_codes v with
    | mk fix' res =>
      rw [hpp] at h
      have hres : (parse_postcode 0 v).2 = res := by
        rw [parse_postcode_snd 0 st.fixme_codes v, hpp]
      cases res with
      | error err => exact absurd h (by simp)
      | ok pc =>
        dsimp only at h
        have hitem : item' = { item with
            address := add_address_value item.address ("postcode") (pc.map AddrVal.intVal) } := by
          have := congrArg Prod.snd h
          simpa using this.symm
        subst hitem
        cases pc with
        | none => simp [add_address_value, hf, hres]
        | some n => simp [add_address_value, hf, hres]
  | false =>
    cases hs : eqCP f ("street") && !skip_street v with
    | true =>
      simp only [process_addr, hf, hs, Bool.false_eq_true, if_false, if_true] at h
      have hitem : item' = { item with
          address := add_address_value item.address ("street")
            (some (.strVal (correct_street_name v))) } := by
        have := congrArg Prod.snd h
        simpa using this.symm
      subst hitem
      simp [add_address_value, hf, hs]
    | false =>
      cases hsub : eqCP f ("suburb") with
      | true =>
        simp only [process_addr, hf, hs, hsub, Bool.false_eq_true, if_false, if_true] at h
        have hitem : item' = { item with
            address := add_address_value item.address ("suburb")
              (some (.strVal (pyStrip v))) } := by
          have := congrArg Prod.snd h
          simpa using this.symm
        subst hitem
        simp [add_address_value, hf, hs, hsub]
      | false =>
        simp only [process_addr, hf, hs, hsub, Bool.false_eq_true, if_false] at h
        have hitem : item' = item := by
          have := congrArg Prod.snd h
          simpa using this.symm
        subst hitem
        simp [hf, hs, hsub]

theorem process_child_address (st : PState) (item : Item) (c : Child)
    (st' : PState) (item' : Item)
    (h : process_child st item c = (st', .ok item')) :
    (item'.address ≠ none ↔ (item.address ≠ none ∨ storesAddrValue c = true)) := by
  cases c with
  | nd r =>
    have hitem : item' = item := by
      have := congrArg Prod.snd h
      simpa [process_child] using this.symm
    subst hitem
    simp [storesAddrValue]
  | other n =>
    have hitem : item' = item := by
      have := congrArg Prod.snd h
      simpa [process_child] using this.symm
    subst hitem
    simp [storesAddrValue]
  | tag k v =>
    cases ha : eqCP k ("amenity") with
    | true =>
      simp only [process_child, ha, if_true] at h
      have hitem : item' = { item with amenity := some (pyStrip v) } := by
        have := congrArg Prod.snd h
        simpa using this.symm
      subst hitem
      simp [storesAddrValue, ha]
    | false =>
      cases hp : pyStartsWith k ("addr:") with
      | true =>
        simp only [process_child, ha, hp, Bool.false_eq_true, if_false, if_true] at h
        cases hsp : splitColon k with
        | nil =>
          rw [hsp] at h
          have hitem : item' = item := by
            have := congrArg Prod.snd h
            simpa using this.symm
          subst hitem
          simp [storesAddrValue, ha, hp, hsp]
        | cons p1 rest =>
          cases rest with
          | nil =>
            rw [hsp] at h
            have hitem : item' = item := by
              have := congrArg Prod.snd h
              simpa using this.symm
            subst hitem
            simp [storesAddrValue, ha, hp, hsp]
          | cons f rest2 =>
            cases rest2 with
            | nil =>
              rw [hsp] at h
              have := process_addr_address st item f v st' item' h
              rw [this]
              simp only [storesAddrValue, ha, hp, hsp, Bool.false_eq_true, if_false, if_true]
            | cons p3 rest3 =>
              rw [hsp] at h
              have hitem : item' = item := by
                have := congrArg Prod.snd h
                simpa using this.symm
              subst hitem
              simp [storesAddrValue, ha, hp, hsp]
      | false =>
        cases hn : eqCP k ("name") with
        | true =>
          simp only [process_child, ha, hp, hn, Bool.false_eq_true, if_false, if_true] at h
          have hitem : item' = { item with name := some (pyStrip v) } := by
            have := congrArg Prod.snd h
            simpa using this.symm
          subst hitem
          simp [storesAddrValue, ha, hp]
        | false =>
          simp only [process_child, ha, hp, hn, Bool.false_eq_true, if_false] at h
          have hitem : item' = item := by
            have := congrArg Prod.snd h
            simpa using this.symm
          subst hitem
          simp [storesAddrValue, ha, hp]

theorem process_children_address (cs : List Child) :
    ∀ (st : PState) (item : Item) (st' : PState) (item' : Item),
      process_children st item cs = (st', .ok item') →
      (item'.address ≠ none ↔
        (item.address ≠ none ∨ ∃ c ∈ cs, storesAddrValue c = true)) := by
  induction cs with
  | nil =>
    intro st item st' item' h
    have hitem : item' = item := by
      have := congrArg Prod.snd h
      simpa [process_children] using this.symm
    subst hitem
    simp
  | cons c cs ih =>
    intro st item st' item' h
    unfold process_children at h
    cases hc : process_child st item c with
    | mk st1 res =>
      rw [hc] at h
      cases res with
      | ok item1 =>
        dsimp only at h
        rw [ih st1 item1 st' item' h, process_child_address st item c st1 item1 hc]
        constructor
        · rintro ((hi | hs) | ⟨c', hmem, hst⟩)
          · exact Or.inl hi
          · exact Or.inr ⟨c, List.mem_cons_self c cs, hs⟩
          · exact Or.inr ⟨c', List.mem_cons_of_mem c hmem, hst⟩
        · rintro (hi | ⟨c', hmem, hst⟩)
          · exact Or.inl (Or.inl hi)
          · rcases List.mem_cons.1 hmem with rfl | hmem'
            · exact Or.inl (Or.inr hst)
            · exact Or.inr ⟨c', hmem', hst⟩
      | error err =>
        dsimp only at h
        exact absurd (congrArg Prod.snd h) (by simp)

/-- Claim C7: for every element processed into a record, the record carries
an address sub-record if and only if at least one addr:* sub-tag stored a
value: accepted postcodes, non-skipped streets and suburbs create it, while
a FIXME postcode (stored as None) or a street rejected by skip_street does
not. -/
theorem c7_address_presence_iff (st : PState) (e : Element) (item : Item)
    (h : (parse_element st e).2 = .ok item) :
    (item.address ≠ none) ↔ (∃ c ∈ e.children, storesAddrValue c = true) := by
  unfold parse_element at h
  dsimp only at h
  cases hpu : parse_user { st with
      element_fields := addElementFields st.element_fields e.attrs } e with
  | mk st2 u =>
    rw [hpu] at h
    dsimp only at h
    cases hts : parse_common_field e ("timestamp") with
    | error err =>
      rw [hts] at h
      exact absurd h (by simp)
    | ok ts =>
      rw [hts] at h
      dsimp only at h
      cases hcs : parse_common_field e ("changeset") with
      | error err =>
        rw [hcs] at h
        exact absurd h (by simp)
      | ok cset =>
        rw [hcs] at h
        dsimp only at h
        cases hvr : parse_common_field e ("version") with
        | error err =>
          rw [hvr] at h
          exact absurd h (by simp)
        | ok ver =>
          rw [hvr] at h
          dsimp only at h
          cases hpos : strIn e.tag POSITIONED_ITEMS with
          | true =>
            simp only [hpos, eq_self_iff_true, if_true] at h
            cases hloc : parse_location st2 e with
            | mk st3 locres =>
              rw [hloc] at h
              cases locres with
              | error err =>
                dsimp only at h
                exact absurd h (by simp)
              | ok loc =>
                dsimp only at h
                cases hpc : process_children st3 _ e.children with
                | mk stf res =>
                  rw [hpc] at h
                  dsimp only at h
                  cases res with
                  | error err => exact absurd h (by simp)
                  | ok item1 =>
                    have hi : item1 = item := by simpa using h
                    have := process_children_address e.children st3 _ stf item1 hpc
                    rw [← hi, this]
                    cases hr : strIn e.tag REFERENCE_ITEMS <;> simp [hr]
          | false =>
            simp only [hpos, Bool.false_eq_true, if_false] at h
            cases hpc : process_children st2 _ e.children with
            | mk stf res =>
              rw [hpc] at h
              dsimp only at h
              cases res with
              | error err => exact absurd h (by simp)
              | ok item1 =>
                have hi : item1 = item := by simpa using h
                have := process_children_address e.children st2 _ stf item1 hpc
                rw [← hi, this]
                cases hr : strIn e.tag REFERENCE_ITEMS <;> simp [hr]

/-- A node whose only addr sub-tags are a suburb and a FIXME postcode: the
suburb stores a value, the FIXME postcode stores none. -/
def elem_suburb_fixme : Element :=
  { tag := "node"
    attrs := [("id", "4"), ("timestamp", "2020-01-01T00:00:00Z"),
              ("changeset", "13"), ("version", "1")]
    children := [Child.tag "addr:suburb" "Лозенец", Child.tag "addr:postcode" "FIXME"] }

/-- The record elem_suburb_fixme parses to. -/
def c7_run_item : Item :=
  match (parse_element initState elem_suburb_fixme).2 with
  | .ok it => it
  | .error _ =>
    { id := none, user_name := none, user_id := none, timestamp := "", changeset := "",
      version := "", type := "", location := none, node_refs := none, amenity := none,
      name := none, address := none }

/-- Witness for C7 at a concrete element carrying a suburb and a FIXME
postcode. -/
theorem c7_address_presence_iff_witness :
    (c7_run_item.address ≠ none) ↔
      (∃ c ∈ elem_suburb_fixme.children, storesAddrValue c = true) :=
  c7_address_presence_iff initState elem_suburb_fixme c7_run_item rfl

/-! ## Claim C5 -/

/-- The last character, if any, is not whitespace. -/
def noTrailingSpace (l : List Char) : Bool :=
  match l.reverse with
  | [] => true
  | c :: _ => !isPySpace c

/-- No character is one of the stripped quote characters. -/
def quoteFree (l : List Char) : Bool := l.all (fun c => !bad_quote_chars.contains c)

/-- The prefix regex matches at no position of the list. -/
def noPrefixMatchIn : List Char → Bool
  | [] => true
  | c :: cs => (matchAt (c :: cs)).isNone && noPrefixMatchIn cs

theorem String_mk_data (s : String) : String.mk s.data = s := rfl

theorem noTrailingSpace_append (l1 l2 : List Char) (h : l2 ≠ []) :
    noTrailingSpace (l1 ++ l2) = noTrailingSpace l2 := by
  unfold noTrailingSpace
  rw [List.reverse_append]
  cases hr : l2.reverse with
  | nil => exact absurd (by simpa using hr) h
  | cons d ds => simp [hr]

theorem quoteFree_append (l1 l2 : List Char) :
    quoteFree (l1 ++ l2) = (quoteFree l1 && quoteFree l2) := by
  simp [quoteFree, List.all_append]

theorem dropWhile_eq_self_head (p : Char → Bool) (l : List Char)
    (h : ∀ c cs, l = c :: cs → p c = false) : l.dropWhile p = l := by
  cases l with
  | nil => rfl
  | cons c cs => simp [List.dropWhile_cons, h c cs rfl]

theorem pyStripL_eq_self (l : List Char) (h1 : headNonSpaceB l = true)
    (h2 : noTrailingSpace l = true) : pyStripL l = l := by
  unfold pyStripL
  rw [dropWhile_eq_self_head isPySpace l ?ha]
  rw [dropWhile_eq_self_head isPySpace l.reverse ?hb]
  · rw [List.reverse_reverse]
  case ha =>
    intro c cs hl
    rw [hl] at h1
    simpa [headNonSpaceB] using h1
  case hb =>
    intro c cs hl
    unfold noTrailingSpace at h2
    rw [hl] at h2
    simpa using h2

theorem stripped_clean (l : List Char) (h1 : headNonSpaceB l = true)
    (h2 : noTrailingSpace l = true) (h3 : quoteFree l = true) :
    (pyStripL l).filter (fun c => !bad_quote_chars.contains c) = l := by
  rw [pyStripL_eq_self l h1 h2]
  exact List.filter_eq_self.2 (fun a ha => List.all_eq_true.1 h3 a ha)

theorem prefixSubF_no_match (fuel : Nat) :
    ∀ l : List Char, l.length ≤ fuel → noPrefixMatchIn l = true →
      prefixSubF fuel l = l := by
  induction fuel with
  | zero =>
    intro l h1 _
    cases l with
    | nil => rfl
    | cons c cs => exact absurd h1 (by simp)
  | succ f ih =>
    intro l h1 h2
    cases l with
    | nil => rfl
    | cons c cs =>
      unfold noPrefixMatchIn at h2
      rw [Bool.and_eq_true] at h2
      obtain ⟨hm, hrest⟩ := h2
      have hmn : matchAt (c :: cs) = none := by
        cases hx : matchAt (c :: cs) with
        | none => rfl
        | some p => rw [hx] at hm; exact absurd hm (by simp)
      show prefixSubF (f + 1) (c :: cs) = c :: cs
      simp only [prefixSubF, hmn]
      rw [ih cs (Nat.le_of_succ_le_succ (by simpa using h1)) hrest]

theorem matchAt_canon_ul (hd : Char) (tl : List Char) (hh : isPySpace hd = false) :
    matchAt ('у' :: 'л' :: '.' :: ' ' :: hd :: tl) = some (['у', 'л'], hd :: tl) := by
  have hr : rootAt ('у' :: 'л' :: '.' :: ' ' :: hd :: tl) =
      some (['у', 'л'], '.' :: ' ' :: hd :: tl) := rfl
  have e1 : isPySpace '.' = false := rfl
  have e2 : isPySpace ' ' = true := rfl
  unfold matchAt
  rw [hr]
  dsimp only
  have hsep : sepTry ('.' :: ' ' :: hd :: tl) = some (hd :: tl) := by
    simp [sepTry, headNonSpaceB, hh, e1, e2]
  rw [hsep]
  rfl

theorem matchAt_canon_bul (hd : Char) (tl : List Char) (hh : isPySpace hd = false) :
    matchAt ('б' :: 'у' :: 'л' :: '.' :: ' ' :: hd :: tl) = some (['б', 'у', 'л'], hd :: tl) := by
  have hr : rootAt ('б' :: 'у' :: 'л' :: '.' :: ' ' :: hd :: tl) =
      some (['б', 'у', 'л'], '.' :: ' ' :: hd :: tl) := rfl
  have e1 : isPySpace '.' = false := rfl
  have e2 : isPySpace ' ' = true := rfl
  unfold matchAt
  rw [hr]
  dsimp only
  have hsep : sepTry ('.' :: ' ' :: hd :: tl) = some (hd :: tl) := by
    simp [sepTry, headNonSpaceB, hh, e1, e2]
  rw [hsep]
  rfl

theorem matchAt_canon_pl (hd : Char) (tl : List Char) (hh : isPySpace hd = false) :
    matchAt ('п' :: 'л' :: '.' :: ' ' :: hd :: tl) = some (['п', 'л'], hd :: tl) := by
  have hr : rootAt ('п' :: 'л' :: '.' :: ' ' :: hd :: tl) =
      some (['п', 'л'], '.' :: ' ' :: hd :: tl) := rfl
  have e1 : isPySpace '.' = false := rfl
  have e2 : isPySpace ' ' = true := rfl
  unfold matchAt
  rw [hr]
  dsimp only
  have hsep : sepTry ('.' :: ' ' :: hd :: tl) = some (hd :: tl) := by
    simp [sepTry, headNonSpaceB, hh, e1, e2]
  rw [hsep]
  rfl

theorem prefixSubF_cons_match (f : Nat) (c : Char) (cs root rest : List Char)
    (h : matchAt (c :: cs) = some (root, rest)) :
    prefixSubF (f + 1) (c :: cs) = root ++ '.' :: ' ' :: prefixSubF f rest := by
  simp only [prefixSubF, h]

theorem c5_fix_ul (name : String)
    (hne : name.data ≠ [])
    (hhead : headNonSpaceB name.data = true)
    (htail : noTrailingSpace name.data = true)
    (hquote : quoteFree name.data = true)
    (hnomatch : noPrefixMatchIn name.data = true)
    (hman : dictGet manual_street_names_ref (pyLowerStr ("ул" ++ ". " ++ name)) = none ∨
      dictGet manual_street_names_ref (pyLowerStr ("ул" ++ ". " ++ name)) =
        some ("ул" ++ ". " ++ name)) :
    correct_street_name ("ул" ++ ". " ++ name) = "ул" ++ ". " ++ name := by
  have hshape : ("ул" ++ ". " ++ name).data = 'у' :: 'л' :: '.' :: ' ' :: name.data := rfl
  have hsplit : ('у' :: 'л' :: '.' :: ' ' :: name.data) = ['у', 'л', '.', ' '] ++ name.data := rfl
  have hh1 : headNonSpaceB ('у' :: 'л' :: '.' :: ' ' :: name.data) = true := rfl
  have hh2 : noTrailingSpace ('у' :: 'л' :: '.' :: ' ' :: name.data) = true := by
    rw [hsplit, noTrailingSpace_append _ _ hne]
    exact htail
  have hh3 : quoteFree ('у' :: 'л' :: '.' :: ' ' :: name.data) = true := by
    rw [hsplit, quoteFree_append, hquote]
    rfl
  have hclean : String.mk ((pyStripL ("ул" ++ ". " ++ name).data).filter
      (fun c => !bad_quote_chars.contains c)) = "ул" ++ ". " ++ name := by
    rw [hshape, stripped_clean _ hh1 hh2 hh3]
    rfl
  have w1 : pyStartsWith ("ул. " ++ name) ("улица") = false := rfl
  have w2 : pyStartsWith ("ул. " ++ name) ("булевард") = false := rfl
  have w3 : pyStartsWith ("ул. " ++ name) ("площад") = false := rfl
  have hfw : full_word_substitution ("ул" ++ ". " ++ name) = "ул" ++ ". " ++ name := by
    simp [full_word_substitution, w1, w2, w3]
  have htr : dictGet manually_translated_streets ("ул" ++ ". " ++ name) = none := rfl
  have hregex : street_prefix_regex_sub ("ул" ++ ". " ++ name) = "ул" ++ ". " ++ name := by
    apply String.ext
    show prefixSubF ("ул" ++ ". " ++ name).data.length ("ул" ++ ". " ++ name).data
        = ("ул" ++ ". " ++ name).data
    rw [hshape]
    cases hx : name.data with
    | nil => exact absurd hx hne
    | cons hd tl =>
      have hh : isPySpace hd = false := by
        rw [hx] at hhead
        simpa [headNonSpaceB] using hhead
      have hnm : noPrefixMatchIn (hd :: tl) = true := by
        rw [← hx]
        exact hnomatch
      have hlen : ('у' :: 'л' :: '.' :: ' ' :: hd :: tl).length = (tl.length + 4) + 1 := by
        simp
      rw [hlen]
      rw [prefixSubF_cons_match (tl.length + 4) 'у' ('л' :: '.' :: ' ' :: hd :: tl)
        ['у', 'л'] (hd :: tl) (matchAt_canon_ul hd tl hh)]
      rw [prefixSubF_no_match (tl.length + 4) (hd :: tl) (by simp) hnm]
      rfl
  unfold correct_street_name
  dsimp only
  rw [hclean, hfw]
  rcases hman with hm | hm
  · rw [hm]
    dsimp only
    rw [htr]
    exact hregex
  · rw [hm]

theorem c5_fix_bul (name : String)
    (hne : name.data ≠ [])
    (hhead : headNonSpaceB name.data = true)
    (htail : noTrailingSpace name.data = true)
    (hquote : quoteFree name.data = true)
    (hnomatch : noPrefixMatchIn name.data = true)
    (hman : dictGet manual_street_names_ref (pyLowerStr ("бул" ++ ". " ++ name)) = none ∨
      dictGet manual_street_names_ref (pyLowerStr ("бул" ++ ". " ++ name)) =
        some ("бул" ++ ". " ++ name)) :
    correct_street_name ("бул" ++ ". " ++ name) = "бул" ++ ". " ++ name := by
  have hshape : ("бул" ++ ". " ++ name).data = 'б' :: 'у' :: 'л' :: '.' :: ' ' :: name.data := rfl
  have hsplit : ('б' :: 'у' :: 'л' :: '.' :: ' ' :: name.data) =
      ['б', 'у', 'л', '.', ' '] ++ name.data := rfl
  have hh1 : headNonSpaceB ('б' :: 'у' :: 'л' :: '.' :: ' ' :: name.data) = true := rfl
  have hh2 : noTrailingSpace ('б' :: 'у' :: 'л' :: '.' :: ' ' :: name.data) = true := by
    rw [hsplit, noTrailingSpace_append _ _ hne]
    exact htail
  have hh3 : quoteFree ('б' :: 'у' :: 'л' :: '.' :: ' ' :: name.data) = true := by
    rw [hsplit, quoteFree_append, hquote]
    rfl
  have hclean : String.mk ((pyStripL ("бул" ++ ". " ++ name).data).filter
      (fun c => !bad_quote_chars.contains c)) = "бул" ++ ". " ++ name := by
    rw [hshape, stripped_clean _ hh1 hh2 hh3]
    rfl
  have w1 : pyStartsWith ("бул. " ++ name) ("улица") = false := rfl
  have w2 : pyStartsWith ("бул. " ++ name) ("булевард") = false := rfl
  have w3 : pyStartsWith ("бул. " ++ name) ("площад") = false := rfl
  have hfw : full_word_substitution ("бул" ++ ". " ++ name) = "бул" ++ ". " ++ name := by
    simp [full_word_substitution, w1, w2, w3]
  have htr : dictGet manually_translated_streets ("бул" ++ ". " ++ name) = none := rfl
  have hregex : street_prefix_regex_sub ("бул" ++ ". " ++ name) = "бул" ++ ". " ++ name := by
    apply String.ext
    show prefixSubF ("бул" ++ ". " ++ name).data.length ("бул" ++ ". " ++ name).data
        = ("бул" ++ ". " ++ name).data
    rw [hshape]
    cases hx : name.data with
    | nil => exact absurd hx hne
    | cons hd tl =>
      have hh : isPySpace hd = false := by
        rw [hx] at hhead
        simpa [headNonSpaceB] using hhead
      have hnm : noPrefixMatchIn (hd :: tl) = true := by
        rw [← hx]
        exact hnomatch
      have hlen : ('б' :: 'у' :: 'л' :: '.' :: ' ' :: hd :: tl).length = (tl.length + 5) + 1 := by
        simp
      rw [hlen]
      rw [prefixSubF_cons_match (tl.length + 5) 'б' ('у' :: 'л' :: '.' :: ' ' :: hd :: tl)
        ['б', 'у', 'л'] (hd :: tl) (matchAt_canon_bul hd tl hh)]
      rw [prefixSubF_no_match (tl.length + 5) (hd :: tl) (by simp) hnm]
      rfl
  unfold correct_street_name
  dsimp only
  rw [hclean, hfw]
  rcases hman with hm | hm
  · rw [hm]
    dsimp only
    rw [htr]
    exact hregex
  · rw [hm]

theorem c5_fix_pl (name : String)
    (hne : name.data ≠ [])
    (hhead : headNonSpaceB name.data = true)
    (htail : noTrailingSpace name.data = true)
    (hquote : quoteFree name.data = true)
    (hnomatch : noPrefixMatchIn name.data = true)
    (hman : dictGet manual_street_names_ref (pyLowerStr ("пл" ++ ". " ++ name)) = none ∨
      dictGet manual_street_names_ref (pyLowerStr ("пл" ++ ". " ++ name)) =
        some ("пл" ++ ". " ++ name)) :
    correct_street_name ("пл" ++ ". " ++ name) = "пл" ++ ". " ++ name := by
  have hshape : ("пл" ++ ". " ++ name).data = 'п' :: 'л' :: '.' :: ' ' :: name.data := rfl
  have hsplit : ('п' :: 'л' :: '.' :: ' ' :: name.data) = ['п', 'л', '.', ' '] ++ name.data := rfl
  have hh1 : headNonSpaceB ('п' :: 'л' :: '.' :: ' ' :: name.data) = true := rfl
  have hh2 : noTrailingSpace ('п' :: 'л' :: '.' :: ' ' :: name.data) = true := by
    rw [hsplit, noTrailingSpace_append _ _ hne]
    exact htail
  have hh3 : quoteFree ('п' :: 'л' :: '.' :: ' ' :: name.data) = true := by
    rw [hsplit, quoteFree_append, hquote]
    rfl
  have hclean : String.mk ((pyStripL ("пл" ++ ". " ++ name).data).filter
      (fun c => !bad_quote_chars.contains c)) = "пл" ++ ". " ++ name := by
    rw [hshape, stripped_clean _ hh1 hh2 hh3]
    rfl
  have w1 : pyStartsWith ("пл. " ++ name) ("улица") = false := rfl
  have w2 : pyStartsWith ("пл. " ++ name) ("булевард") = false := rfl
  have w3 : pyStartsWith ("пл. " ++ name) ("площад") = false := rfl
  have hfw : full_word_substitution ("пл" ++ ". " ++ name) = "пл" ++ ". " ++ name := by
    simp [full_word_substitution, w1, w2, w3]
  have htr : dictGet manually_translated_streets ("пл" ++ ". " ++ name) = none := rfl
  have hregex : street_prefix_regex_sub ("пл" ++ ". " ++ name) = "пл" ++ ". " ++ name := by
    apply String.ext
    show prefixSubF ("пл" ++ ". " ++ name).data.length ("пл" ++ ". " ++ name).data
        = ("пл" ++ ". " ++ name).data
    rw [hshape]
    cases hx : name.data with
    | nil => exact absurd hx hne
    | cons hd tl =>
      have hh : isPySpace hd = false := by
        rw [hx] at hhead
        simpa [headNonSpaceB] using hhead
      have hnm : noPrefixMatchIn (hd :: tl) = true := by
        rw [← hx]
        exact hnomatch
      have hlen : ('п' :: 'л' :: '.' :: ' ' :: hd :: tl).length = (tl.length + 4) + 1 := by
        simp
      rw [hlen]
      rw [prefixSubF_cons_match (tl.length + 4) 'п' ('л' :: '.' :: ' ' :: hd :: tl)
        ['п', 'л'] (hd :: tl) (matchAt_canon_pl hd tl hh)]
      rw [prefixSubF_no_match (tl.length + 4) (hd :: tl) (by simp) hnm]
      rfl
  unfold correct_street_name
  dsimp only
  rw [hclean, hfw]
  rcases hman with hm | hm
  · rw [hm]
    dsimp only
    rw [htr]
    exact hregex
  · rw [hm]

/-- Claim C5: correct_street_name is idempotent on already-canonical input.
Canonical prefixed form is formalised as root ++ ". " ++ name with root one
of the three lowercase abbreviations and name a proper street name: nonempty,
neither starting nor ending in whitespace, free of the stripped quote
characters, with no internal match of the prefix regex, and not a
wrongly-capitalised variant of a manual-table entry (its lowercasing is
either absent from the manual capitalisation table or mapped to the string
itself).  One application returns the string unchanged and a second
application returns the same string again. -/
theorem c5_correct_street_name_idempotent (root name : String)
    (hroot : root = "ул" ∨ root = "бул" ∨ root = "пл")
    (hne : name.data ≠ [])
    (hhead : headNonSpaceB name.data = true)
    (htail : noTrailingSpace name.data = true)
    (hquote : quoteFree name.data = true)
    (hnomatch : noPrefixMatchIn name.data = true)
    (hman : dictGet manual_street_names_ref (pyLowerStr (root ++ ". " ++ name)) = none ∨
      dictGet manual_street_names_ref (pyLowerStr (root ++ ". " ++ name)) =
        some (root ++ ". " ++ name)) :
    correct_street_name (root ++ ". " ++ name) = root ++ ". " ++ name ∧
    correct_street_name (correct_street_name (root ++ ". " ++ name)) =
      correct_street_name (root ++ ". " ++ name) := by
  have main : correct_street_name (root ++ ". " ++ name) = root ++ ". " ++ name := by
    rcases hroot with rfl | rfl | rfl
    · exact c5_fix_ul name hne hhead htail hquote hnomatch hman
    · exact c5_fix_bul name hne hhead htail hquote hnomatch hman
    · exact c5_fix_pl name hne hhead htail hquote hnomatch hman
  refine ⟨main, ?_⟩
  rw [main]
  exact main

/-- Witness for C5 at the canonical string of the spec example. -/
theorem c5_correct_street_name_idempotent_witness :
    correct_street_name ("ул" ++ ". " ++ "Витоша") = "ул" ++ ". " ++ "Витоша" ∧
    correct_street_name (correct_street_name ("ул" ++ ". " ++ "Витоша")) =
      correct_street_name ("ул" ++ ". " ++ "Витоша") :=
  c5_correct_street_name_idempotent ("ул") ("Витоша") (Or.inl rfl)
    (by decide) rfl rfl (by decide) rfl (Or.inl rfl)
